import Mathlib

/-!
Verification of the session/token lifecycle subsystem of the InsForge JS SDK.

The TypeScript sources are shallowly embedded: each class becomes a state
structure, each method a pure function from state (plus the abstracted results
of awaited network calls) to state and return value.  JavaScript runtime
values that the subsystem treats opaquely (user records, extra error-body
fields) are modelled by a small inductive `JVal` of JSON values, and
`JSON.stringify` / `JSON.parse` — which are host runtime functions, not
repository code — are abstracted as a `JsonCodec` parameter; theorems assume
only the pointwise facts about the codec they need, and concrete witnesses
instantiate it with an executable codec.
-/

namespace InsForge

/-- A JavaScript/JSON value, as far as the session subsystem inspects one.
Object- and array-valued fields are never looked into by the embedded code
paths, so primitive carriers suffice; a value of this type is carried
verbatim wherever the source carries a parsed JSON value. -/
inductive JVal where
  | jnull
  | jbool (b : Bool)
  | jnum (n : Int)
  | jstr (s : String)
deriving DecidableEq, Repr

/-- JavaScript truthiness of a `JVal` (`null`, `false`, `0`, `""` are falsy). -/
def JVal.truthy : JVal → Bool
  | .jnull => false
  | .jbool b => b
  | .jnum n => n != 0
  | .jstr s => s != ""

/-- Truthiness of a possibly-absent value (`undefined` is falsy). -/
def truthyJ : Option JVal → Bool
  | none => false
  | some v => v.truthy

/-- Truthiness of a `string | null` value: `null` and `""` are falsy. -/
def truthyS : Option String → Bool
  | none => false
  | some s => s != ""

/-- Abstraction of the host's `JSON.stringify` / `JSON.parse` pair
(`stringify : value → string`, `parse : string → value or throw`,
a thrown parse modelled as `none`). -/
structure JsonCodec where
  stringify : JVal → String
  parse : String → Option JVal

/-- Executable codec used by concrete witnesses: an injective tagged
encoding with a total decoder. -/
def encodeJ : JVal → String
  | .jnull => "null"
  | .jbool b => if b then "true" else "false"
  | .jnum n => "#" ++ toString n
  | .jstr s => "$" ++ s

/-- Digit value of a character, if it is a decimal digit. -/
def charDigit (ch : Char) : Option Nat :=
  if 48 ≤ ch.toNat ∧ ch.toNat ≤ 57 then some (ch.toNat - 48) else none

/-- Parse a non-empty run of decimal digits. -/
def parseNatChars : List Char → Option Nat → Option Nat
  | [], acc => acc
  | ch :: rest, acc =>
    match charDigit ch, acc with
    | some d, some a => parseNatChars rest (some (a * 10 + d))
    | some d, none => parseNatChars rest (some d)
    | none, _ => none

/-- Parse an optionally negated digit run. -/
def parseIntChars : List Char → Option Int
  | '-' :: rest => (parseNatChars rest none).map (fun n => -(n : Int))
  | l => (parseNatChars l none).map (fun n => (n : Int))

/-- Decoder matching `encodeJ`; strings outside its image (e.g. `"garbage"`)
decode to `none`, playing the role of invalid JSON. -/
def decodeJ (s : String) : Option JVal :=
  if s = "null" then some .jnull
  else if s = "true" then some (.jbool true)
  else if s = "false" then some (.jbool false)
  else
    match s.data with
    | '$' :: rest => some (.jstr (String.mk rest))
    | '#' :: rest => (parseIntChars rest).map .jnum
    | _ => none

/-- Witness codec packaging `encodeJ`/`decodeJ`. -/
def witCodec : JsonCodec := ⟨encodeJ, decodeJ⟩

/-! ### Key-value storage (`TokenStorage` / `localStorage` / `sessionStorage`)

The SDK's `TokenStorage` interface (`getItem`/`setItem`/`removeItem`) is
modelled as an association list of string keys to string values. -/

/-- State of a `TokenStorage`-conforming key-value store. -/
abbrev Store := List (String × String)

/-- Models `storage.getItem(key)`: the stored value, or `none` (JS `null`). -/
def getItem : Store → String → Option String
  | [], _ => none
  | kv :: tl, k => if kv.1 = k then some kv.2 else getItem tl k

/-- Models `storage.removeItem(key)`. -/
def removeItem : Store → String → Store
  | [], _ => []
  | kv :: tl, k => if kv.1 = k then removeItem tl k else kv :: removeItem tl k

/-- Models `storage.setItem(key, value)`: overwrite semantics. -/
def setItem (st : Store) (k : String) (v : String) : Store :=
  (k, v) :: removeItem st k

theorem getItem_setItem_same (st : Store) (k v : String) :
    getItem (setItem st k v) k = some v := by
  simp [getItem, setItem]

theorem getItem_removeItem_same (st : Store) (k : String) :
    getItem (removeItem st k) k = none := by
  induction st with
  | nil => rfl
  | cons kv tl ih =>
    by_cases h : kv.1 = k <;> simp [removeItem, getItem, h, ih]

theorem getItem_removeItem_other (st : Store) (k k' : String) (h : k' ≠ k) :
    getItem (removeItem st k) k' = getItem st k' := by
  have h2 : k ≠ k' := fun he => h he.symm
  induction st with
  | nil => rfl
  | cons kv tl ih =>
    by_cases hk : kv.1 = k
    · have hk' : kv.1 ≠ k' := by
        rw [hk]; exact h2
      simp [removeItem, getItem, hk, hk', h2, ih]
    · by_cases hk2 : kv.1 = k' <;> simp [removeItem, getItem, hk, hk2, h, ih]

theorem getItem_setItem_other (st : Store) (k k' v : String) (h : k' ≠ k) :
    getItem (setItem st k v) k' = getItem st k' := by
  have hk : k ≠ k' := fun he => h he.symm
  simp [setItem, getItem, hk, getItem_removeItem_other st k k' h]

/-! ## `src/lib/token-manager.ts` — mode-based TokenManager

`class TokenManager` with in-memory `accessToken`/`user`, a persistent
`storage`, and a `mode` of `'memory'` (new backend) or `'storage'`
(legacy backend, the default). -/

/-- Models `'memory' | 'storage'` mode tag. -/
inductive TMMode where
  | memory
  | storage
deriving DecidableEq, Repr

/-- localStorage key `insforge-auth-token`. -/
def TOKEN_KEY : String := "insforge-auth-token"

/-- localStorage key `insforge-auth-user`. -/
def USER_KEY : String := "insforge-auth-user"

/-- An auth session `{ accessToken, user }` as held at runtime.  The `user`
field is an arbitrary runtime value (the code never validates its shape). -/
structure AuthSession where
  accessToken : String
  user : JVal
deriving DecidableEq, Repr

/-- State of `token-manager.ts`'s `TokenManager`: memory fields, the
backing store, and the mode flag. -/
structure TM where
  accessToken : Option String
  user : JVal
  store : Store
  mode : TMMode
deriving Repr

namespace TM

/-- Models `getAccessToken()`: returns the in-memory token. -/
def getAccessToken (tm : TM) : Option String := tm.accessToken

/-- Models `getUser()`. -/
def getUser (tm : TM) : JVal := tm.user

/-- Models `getSession()`: `if (!this.accessToken || !this.user) return null`. -/
def getSession (tm : TM) : Option AuthSession :=
  if truthyS tm.accessToken && tm.user.truthy then
    some ⟨tm.accessToken.getD "", tm.user⟩
  else none

/-- Models `clearSession()`: clears memory and removes both localStorage keys. -/
def clearSession (tm : TM) : TM :=
  { tm with accessToken := none, user := .jnull,
            store := removeItem (removeItem tm.store TOKEN_KEY) USER_KEY }

/-- Models `saveSession(session)`: memory always; localStorage only in storage mode. -/
def saveSession (c : JsonCodec) (tm : TM) (s : AuthSession) : TM :=
  let tm := { tm with accessToken := some s.accessToken, user := s.user }
  if tm.mode = .storage then
    { tm with store := setItem (setItem tm.store TOKEN_KEY s.accessToken)
                         USER_KEY (c.stringify s.user) }
  else tm

/-- Models `setAccessToken(token)`. -/
def setAccessToken (tm : TM) (t : String) : TM :=
  let tm := { tm with accessToken := some t }
  if tm.mode = .storage then { tm with store := setItem tm.store TOKEN_KEY t }
  else tm

/-- Models `setUser(user)`. -/
def setUser (c : JsonCodec) (tm : TM) (u : JVal) : TM :=
  let tm := { tm with user := u }
  if tm.mode = .storage then
    { tm with store := setItem tm.store USER_KEY (c.stringify u) }
  else tm

/-- Models `setMemoryMode()`: clears the localStorage keys when leaving storage
mode, then sets the mode flag. -/
def setMemoryMode (tm : TM) : TM :=
  let tm :=
    if tm.mode = .storage then
      { tm with store := removeItem (removeItem tm.store TOKEN_KEY) USER_KEY }
    else tm
  { tm with mode := .memory }

/-- Models `loadFromStorage()`: hydrates memory from localStorage; a JSON parse
failure runs `clearSession()` (the interim `this.accessToken = token`
assignment is undone by it). -/
def loadFromStorage (c : JsonCodec) (tm : TM) : TM :=
  let token := getItem tm.store TOKEN_KEY
  let userStr := getItem tm.store USER_KEY
  if truthyS token && truthyS userStr then
    match c.parse (userStr.getD "") with
    | some u => { tm with accessToken := token, user := u }
    | none => clearSession tm
  else tm

/-- Models `setStorageMode()`: sets the mode flag, then loads from localStorage. -/
def setStorageMode (c : JsonCodec) (tm : TM) : TM :=
  loadFromStorage c { tm with mode := .storage }

/-- Models `hasStoredSession()`. -/
def hasStoredSession (tm : TM) : Bool :=
  truthyS (getItem tm.store TOKEN_KEY)

end TM

/-! ## `src/lib/session-storage.ts` — storage strategies

`SecureSessionStorage` (memory token + `isAuthenticated` flag cookie) and
`PersistentSessionStorage` (key-value store).  The flag cookie written by
`setAuthFlag` is modelled as a boolean carried alongside the memory fields;
it never influences `getSession`. -/

/-- State of a `SecureSessionStorage` instance (plus the flag cookie it
manages). -/
structure SecureState where
  accessToken : Option String
  user : JVal
  authFlag : Bool
deriving Repr

namespace SecureState

/-- Models `saveSession`: memory write plus `setAuthFlag(true)`. -/
def saveSession (s : SecureState) (sess : AuthSession) : SecureState :=
  { s with accessToken := some sess.accessToken, user := sess.user,
           authFlag := true }

/-- Models `getSession`: `if (!this.accessToken) return null`, else
`{accessToken, user: this.user!}`. -/
def getSession (s : SecureState) : Option AuthSession :=
  if truthyS s.accessToken then some ⟨s.accessToken.getD "", s.user⟩ else none

/-- Models `clearSession`: memory cleared plus `setAuthFlag(false)`. -/
def clearSession (s : SecureState) : SecureState :=
  { s with accessToken := none, user := .jnull, authFlag := false }

/-- Models `shouldAttemptRefresh`: no token in memory and the flag cookie set. -/
def shouldAttemptRefresh (s : SecureState) : Bool :=
  if truthyS s.accessToken then false else s.authFlag

end SecureState

namespace Persist

/-- Models `PersistentSessionStorage.saveSession`. -/
def saveSession (c : JsonCodec) (st : Store) (sess : AuthSession) : Store :=
  setItem (setItem st TOKEN_KEY sess.accessToken) USER_KEY
    (c.stringify sess.user)

/-- Models `PersistentSessionStorage.clearSession`. -/
def clearSession (st : Store) : Store :=
  removeItem (removeItem st TOKEN_KEY) USER_KEY

/-- Models `PersistentSessionStorage.getSession`: reads both keys; a JSON parse
failure is caught, the store cleared, and `null` returned.  The updated
store is returned alongside the result. -/
def getSession (c : JsonCodec) (st : Store) : Option AuthSession × Store :=
  let token := getItem st TOKEN_KEY
  let userStr := getItem st USER_KEY
  if truthyS token && truthyS userStr then
    match c.parse (userStr.getD "") with
    | some u => (some ⟨token.getD "", u⟩, st)
    | none => (none, clearSession st)
  else (none, st)

/-- Models `PersistentSessionStorage.setAccessToken`. -/
def setAccessToken (st : Store) (t : String) : Store := setItem st TOKEN_KEY t

end Persist

/-- A `SessionStorageStrategy` value: one of the two implementations with
its state. -/
inductive Strat where
  | secure (s : SecureState)
  | persistent (st : Store)
deriving Repr

namespace Strat

/-- Models `strategyId` of each implementation. -/
def strategyId : Strat → String
  | .secure _ => "secure"
  | .persistent _ => "persistent"

/-- Models `saveSession` dispatched through the strategy interface. -/
def saveSession (c : JsonCodec) : Strat → AuthSession → Strat
  | .secure s, sess => .secure (s.saveSession sess)
  | .persistent st, sess => .persistent (Persist.saveSession c st sess)

/-- Models `getSession` dispatched through the strategy interface (returns the
possibly self-healed strategy state as well). -/
def getSession (c : JsonCodec) : Strat → Option AuthSession × Strat
  | .secure s => (s.getSession, .secure s)
  | .persistent st =>
      let r := Persist.getSession c st
      (r.1, .persistent r.2)

end Strat

/-- A truthy optional string is a non-empty `some`. -/
theorem truthyS_getD_ne (o : Option String) (h : truthyS o = true) :
    o.getD "" ≠ "" := by
  cases o with
  | none => simp [truthyS] at h
  | some t => simpa [truthyS] using h

/-- Models `SecureSessionStorage.getSession` only returns sessions with a
non-empty access token. -/
theorem secure_getSession_token_ne (sec : SecureState) (sess : AuthSession)
    (h : sec.getSession = some sess) : sess.accessToken ≠ "" := by
  unfold SecureState.getSession at h
  by_cases ht : truthyS sec.accessToken
  · rw [if_pos ht] at h
    injection h with h
    subst h
    exact truthyS_getD_ne _ ht
  · rw [if_neg ht] at h
    exact absurd h (by simp)

/-- Models `PersistentSessionStorage.getSession` only returns sessions with a
non-empty access token. -/
theorem persist_getSession_token_ne (c : JsonCodec) (st : Store)
    (sess : AuthSession) (h : (Persist.getSession c st).1 = some sess) :
    sess.accessToken ≠ "" := by
  unfold Persist.getSession at h
  by_cases ht : truthyS (getItem st TOKEN_KEY)
      && truthyS (getItem st USER_KEY)
  · simp only [ht, if_true] at h
    cases hp : c.parse ((getItem st USER_KEY).getD "") with
    | none => rw [hp] at h; simp at h
    | some u =>
      rw [hp] at h
      simp only at h
      injection h with h
      subst h
      have ht1 : truthyS (getItem st TOKEN_KEY) = true := by
        simp only [Bool.and_eq_true] at ht; exact ht.1
      exact truthyS_getD_ne _ ht1
  · simp [ht] at h

/-- Any session returned by a strategy's `getSession` passed its truthiness
check, so its access token is non-empty. -/
theorem strat_getSession_token_ne (c : JsonCodec) (s : Strat)
    (sess : AuthSession) (h : (Strat.getSession c s).1 = some sess) :
    sess.accessToken ≠ "" := by
  cases s with
  | secure sec =>
    exact secure_getSession_token_ne sec sess (by simpa [Strat.getSession] using h)
  | persistent st =>
    exact persist_getSession_token_ne c st sess (by simpa [Strat.getSession] using h)

/-! ## `TokenManager` (strategy-pattern variant, wraps a
`SessionStorageStrategy`) -/

/-- Models `TokenManager.setStrategy(strategy)`: reads the existing session and the
previous strategy id, installs the new strategy, and migrates the session
into it when one exists and the ids differ. -/
def setStrategy (c : JsonCodec) (cur newS : Strat) : Strat :=
  let existingSession := (Strat.getSession c cur).1
  let previousId := cur.strategyId
  match existingSession with
  | some sess =>
      if previousId ≠ newS.strategyId then Strat.saveSession c newS sess
      else newS
  | none => newS

/-- C3: switching to a strategy with a different id migrates the held
session, so `getSession` right after the switch returns the same session.
The two codec facts are the (pointwise) behaviour of the host JSON
functions on this session's user record. -/
theorem setStrategy_preserves_session (c : JsonCodec) (cur newS : Strat)
    (sess : AuthSession)
    (hget : (Strat.getSession c cur).1 = some sess)
    (hid : cur.strategyId ≠ newS.strategyId)
    (hrt : c.parse (c.stringify sess.user) = some sess.user)
    (hne : c.stringify sess.user ≠ "") :
    (Strat.getSession c (setStrategy c cur newS)).1 = some sess := by
  have htok := strat_getSession_token_ne c cur sess hget
  obtain ⟨tok, user⟩ := sess
  simp only at htok hrt hne
  unfold setStrategy
  rw [hget]
  simp only [hid, ite_true, ne_eq, not_false_iff]
  cases newS with
  | secure s =>
    simp [Strat.saveSession, Strat.getSession, SecureState.saveSession,
      SecureState.getSession, truthyS, htok, hid]
  | persistent st =>
    have hkey : USER_KEY ≠ TOKEN_KEY := by decide
    have h1 : getItem
        (Persist.saveSession c st ⟨tok, user⟩) TOKEN_KEY = some tok := by
      unfold Persist.saveSession
      rw [getItem_setItem_other _ _ _ _ hkey.symm, getItem_setItem_same]
    have h2 : getItem (Persist.saveSession c st ⟨tok, user⟩) USER_KEY
        = some (c.stringify user) := by
      unfold Persist.saveSession
      rw [getItem_setItem_same]
    simp [Strat.saveSession, Strat.getSession, Persist.getSession, h1, h2,
      truthyS, htok, hne, hrt, hid]

/-- Witness for C3: a persistent store holding a session, migrated into a
fresh secure strategy. -/
theorem setStrategy_preserves_session_witness :
    (Strat.getSession witCodec
      (setStrategy witCodec
        (.persistent [(TOKEN_KEY, "tok"), (USER_KEY, encodeJ (.jstr "alice"))])
        (.secure ⟨none, .jnull, false⟩))).1 = some ⟨"tok", .jstr "alice"⟩ :=
  setStrategy_preserves_session witCodec
    (.persistent [(TOKEN_KEY, "tok"), (USER_KEY, encodeJ (.jstr "alice"))])
    (.secure ⟨none, .jnull, false⟩) ⟨"tok", .jstr "alice"⟩
    (by decide) (by decide) (by decide) (by decide)

/-! ## C5 — corrupt durable data -/

/-- A durable store with no token key and an unparseable user record. -/
def c5Store : Store := [(USER_KEY, "garbage")]

/-- Counterexample to C5 as stated: when the token key is absent, a corrupt
user record is NOT cleared by `getSession` (the `!token || !userStr`
short-circuit returns `null` before the parse is attempted), so the store
keeps the garbage, contradicting "clears the stored token and user keys". -/
theorem corrupt_user_without_token_not_cleared :
    decodeJ "garbage" = none
    ∧ (Persist.getSession witCodec c5Store).1 = none
    ∧ getItem (Persist.getSession witCodec c5Store).2 USER_KEY
        = some "garbage" := by
  refine ⟨by decide, by decide, by decide⟩

/-- C5 (amended): when BOTH keys hold non-empty values and the user record
fails to parse, `getSession` returns `null` (without throwing: the model is
total), removes both keys, and every subsequent `getSession` returns `null`
on the healed store. -/
theorem corrupt_user_record_self_heals (c : JsonCodec) (st : Store)
    (t s : String)
    (ht : getItem st TOKEN_KEY = some t) (htne : t ≠ "")
    (hs : getItem st USER_KEY = some s) (hsne : s ≠ "")
    (hp : c.parse s = none) :
    (Persist.getSession c st).1 = none
    ∧ getItem (Persist.getSession c st).2 TOKEN_KEY = none
    ∧ getItem (Persist.getSession c st).2 USER_KEY = none
    ∧ Persist.getSession c (Persist.getSession c st).2
        = (none, (Persist.getSession c st).2) := by
  have hkey : TOKEN_KEY ≠ USER_KEY := by decide
  have hmain : Persist.getSession c st = (none, Persist.clearSession st) := by
    unfold Persist.getSession
    rw [ht, hs]
    simp [truthyS, htne, hsne, hp]
  have hct : getItem (Persist.clearSession st) TOKEN_KEY = none := by
    unfold Persist.clearSession
    rw [getItem_removeItem_other _ _ _ hkey, getItem_removeItem_same]
  have hcu : getItem (Persist.clearSession st) USER_KEY = none := by
    unfold Persist.clearSession
    rw [getItem_removeItem_same]
  refine ⟨by rw [hmain], by rw [hmain]; exact hct, by rw [hmain]; exact hcu, ?_⟩
  rw [hmain]
  unfold Persist.getSession
  rw [hct]
  simp [truthyS]

/-- Witness for C5 (amended) at a concrete corrupt store. -/
theorem corrupt_user_record_self_heals_witness :
    (Persist.getSession witCodec
      [(TOKEN_KEY, "tok"), (USER_KEY, "garbage")]).1 = none
    ∧ getItem (Persist.getSession witCodec
        [(TOKEN_KEY, "tok"), (USER_KEY, "garbage")]).2 TOKEN_KEY = none
    ∧ getItem (Persist.getSession witCodec
        [(TOKEN_KEY, "tok"), (USER_KEY, "garbage")]).2 USER_KEY = none
    ∧ Persist.getSession witCodec
        (Persist.getSession witCodec
          [(TOKEN_KEY, "tok"), (USER_KEY, "garbage")]).2
        = (none, (Persist.getSession witCodec
            [(TOKEN_KEY, "tok"), (USER_KEY, "garbage")]).2) :=
  corrupt_user_record_self_heals witCodec _ "tok" "garbage"
    (by decide) (by decide) (by decide) (by decide) (by decide)

/-! ## `src/unnamed/part_004` — capability discovery and strategy factory -/

/-- Models `BackendCapabilities` from `/api/health`. -/
structure BackendCapabilities where
  secureSessionStorage : Bool
  refreshTokens : Bool
deriving DecidableEq, Repr

/-- The `capabilities` field of the health body (the other fields are never
read by `discoverCapabilities`). -/
structure HealthResponse where
  capabilities : Option BackendCapabilities
deriving DecidableEq, Repr

/-- Abstracted outcome of `fetch(baseUrl + "/api/health")` followed by
`response.json()`: the fetch may throw (network failure), or yield a
response with an `ok` flag and a body (`none` = `json()` threw on a
malformed body). -/
inductive HealthFetchResult where
  | netErr
  | resp (ok : Bool) (body : Option HealthResponse)
deriving DecidableEq, Repr

/-- Models `DEFAULT_CAPABILITIES` for legacy backends. -/
def DEFAULT_CAPABILITIES : BackendCapabilities := ⟨false, false⟩

/-- Models `discoverCapabilities`: every failure path lands in the conservative
default via the `!response.ok` check or the surrounding `try/catch`. -/
def discoverCapabilities : HealthFetchResult → BackendCapabilities
  | .netErr => DEFAULT_CAPABILITIES
  | .resp ok body =>
    if !ok then DEFAULT_CAPABILITIES
    else
      match body with
      | none => DEFAULT_CAPABILITIES
      | some h =>
        match h.capabilities with
        | some caps => caps
        | none => DEFAULT_CAPABILITIES

/-- Models `createSessionStorage(capabilities, storage?)`: secure strategy iff both
flags are set, else persistent over the supplied store.  (A freshly
constructed `SecureSessionStorage` holds no token or user; construction
does not touch the flag cookie, taken absent here.) -/
def createSessionStorage (caps : BackendCapabilities) (storage : Store) :
    Strat :=
  if caps.secureSessionStorage && caps.refreshTokens then
    .secure ⟨none, .jnull, false⟩
  else .persistent storage

/-- C8: discovery is best-effort and conservative; the default selects the
persistent strategy; secure is chosen exactly when both flags hold. -/
theorem capability_discovery_conservative :
    discoverCapabilities .netErr = DEFAULT_CAPABILITIES
    ∧ (∀ body, discoverCapabilities (.resp false body) = DEFAULT_CAPABILITIES)
    ∧ discoverCapabilities (.resp true none) = DEFAULT_CAPABILITIES
    ∧ (∀ st, (createSessionStorage DEFAULT_CAPABILITIES st).strategyId
        = "persistent")
    ∧ (∀ caps st, (createSessionStorage caps st).strategyId = "secure"
        ↔ caps.secureSessionStorage = true ∧ caps.refreshTokens = true) := by
  have hps : ("persistent" : String) ≠ "secure" := by decide
  refine ⟨rfl, fun body => rfl, rfl, fun st => rfl, fun caps st => ?_⟩
  cases caps with
  | mk sec ref =>
    cases sec <;> cases ref <;>
      simp [createSessionStorage, Strat.strategyId, hps]

/-- Witness for C8 at concrete inputs (discharging the iff's hypotheses). -/
theorem capability_discovery_conservative_witness :
    discoverCapabilities (.resp false (some ⟨some ⟨true, true⟩⟩))
      = DEFAULT_CAPABILITIES
    ∧ (createSessionStorage ⟨true, true⟩ []).strategyId = "secure" :=
  ⟨capability_discovery_conservative.2.1 _,
    (capability_discovery_conservative.2.2.2.2 ⟨true, true⟩ []).mpr
      ⟨rfl, rfl⟩⟩

/-! ## `src/unnamed/part_003` — `HttpClient` with auto-refresh

`handleTokenRefresh` is an event-loop coordination device: the
`isRefreshing` check and queue push (lines 192–198) run synchronously, with
no await between observing Idle and claiming ownership, so each request's
entry is one atomic step.  The model replays an arbitrary arrival order of
requests as a fold of atomic `enterRefresh` steps, followed by the owner's
awaited callback returning (`completeRefresh`), which distributes the single
shared result to every queued waiter. -/

/-- Result of awaiting the registered refresh callback: it returns a new
token, returns `null`, or throws. -/
inductive RefreshCallbackResult where
  | ret (t : Option String)
  | thrown (msg : String)
deriving DecidableEq, Repr

/-- What `handleTokenRefresh` returns to the request that initiated the
refresh: the callback's value, or `null` when the callback threw (the
`catch` returns `null`). -/
def ownerResult : RefreshCallbackResult → Option String
  | .ret t => t
  | .thrown _ => none

/-- What a queued waiter's promise settles to: resolved with the new token
when it is truthy, rejected otherwise (`if (newToken) resolve else reject`;
a rejection is a failure, modelled `none`). -/
def waiterResult : RefreshCallbackResult → Option String
  | .ret (some t) => if t = "" then none else some t
  | .ret none => none
  | .thrown _ => none

/-- Outside the anomalous empty-string token (which the refresh-callback
contract — "new access token or null" — excludes), the initiating request
and every queued waiter observe the same outcome. -/
theorem waiterResult_eq_ownerResult (r : RefreshCallbackResult)
    (hr : r ≠ .ret (some "")) : waiterResult r = ownerResult r := by
  cases r with
  | ret t =>
    cases t with
    | none => rfl
    | some s =>
      by_cases hs : s = ""
      · exact absurd (by rw [hs]) hr
      · simp [waiterResult, ownerResult, hs]
  | thrown m => rfl

/-- Shared refresh-coordination state of the `HttpClient`
(`isRefreshing`, `refreshQueue`), plus bookkeeping: how many times the
refresh callback has been invoked, which request initiated the in-flight
refresh, and each request's settled outcome. -/
structure RefreshState where
  isRefreshing : Bool
  refreshQueue : List Nat
  refreshCount : Nat
  owner : Option Nat
  results : Nat → Option (Option String)

/-- State before any 401 is observed. -/
def initialRefreshState : RefreshState :=
  ⟨false, [], 0, none, fun _ => none⟩

/-- Atomic entry of request `i` into `handleTokenRefresh` (lines 192–198):
if a refresh is in flight the request is queued, otherwise it claims the
flag and invokes the refresh callback (counted). -/
def enterRefresh (i : Nat) (s : RefreshState) : RefreshState :=
  if s.isRefreshing then { s with refreshQueue := s.refreshQueue ++ [i] }
  else { s with isRefreshing := true, owner := some i,
                refreshCount := s.refreshCount + 1 }

/-- The awaited callback returns with `r` (lines 200–224): each queued
waiter is resolved/rejected from the single shared result, the queue is
emptied, and the flag is released. -/
def completeRefresh (r : RefreshCallbackResult) (s : RefreshState) :
    RefreshState :=
  { s with isRefreshing := false, refreshQueue := [], owner := none,
           results := fun j =>
             if s.owner = some j then some (ownerResult r)
             else if j ∈ s.refreshQueue then some (waiterResult r)
             else s.results j }

/-- Replay an arrival order of concurrent 401-observing requests. -/
def runEnters (l : List Nat) : RefreshState :=
  l.foldl (fun s i => enterRefresh i s) initialRefreshState

theorem foldl_enter_refreshing (l : List Nat) (s : RefreshState)
    (h : s.isRefreshing = true) :
    l.foldl (fun s i => enterRefresh i s) s
      = { s with refreshQueue := s.refreshQueue ++ l } := by
  induction l generalizing s with
  | nil => simp
  | cons y ys ih =>
    have he : enterRefresh y s = { s with refreshQueue := s.refreshQueue ++ [y] } := by
      simp [enterRefresh, h]
    simp only [List.foldl_cons, he]
    rw [ih _ (by simp [h])]
    simp

theorem runEnters_cons (x : Nat) (xs : List Nat) :
    runEnters (x :: xs)
      = ⟨true, xs, 1, some x, fun _ => none⟩ := by
  unfold runEnters
  simp only [List.foldl_cons]
  have he : enterRefresh x initialRefreshState
      = ⟨true, [], 1, some x, fun _ => none⟩ := by
    simp [enterRefresh, initialRefreshState]
  rw [he, foldl_enter_refreshing xs _ rfl]
  rfl

/-- C1 (single-flight refresh): for any arrival order `l` of at least two
concurrent requests that each observe a 401 while no refresh is in flight
(and a refresh callback honouring its contract), exactly one call to the
refresh callback is made — indeed at most one at every intermediate point —
and every request settles with the single shared outcome. -/
theorem single_flight_refresh (l : List Nat) (r : RefreshCallbackResult)
    (hlen : 2 ≤ l.length) (hr : r ≠ .ret (some "")) :
    (completeRefresh r (runEnters l)).refreshCount = 1
    ∧ (∀ i ∈ l, (completeRefresh r (runEnters l)).results i
        = some (ownerResult r))
    ∧ (∀ l₁ l₂, l = l₁ ++ l₂ → (runEnters l₁).refreshCount ≤ 1) := by
  cases l with
  | nil => simp at hlen
  | cons x xs =>
    rw [runEnters_cons]
    refine ⟨rfl, ?_, ?_⟩
    · intro i hi
      by_cases hix : i = x
      · simp [completeRefresh, hix]
      · have hmem : i ∈ xs := by
          cases hi with
          | head => exact absurd rfl hix
          | tail _ h => exact h
        have hx : ¬ (some x = some i) := by
          intro hc; exact hix (Option.some.inj hc).symm
        simp [completeRefresh, hx, hmem, waiterResult_eq_ownerResult r hr]
    · intro l₁ l₂ hsplit
      cases l₁ with
      | nil => simp [runEnters, initialRefreshState]
      | cons y ys =>
        rw [runEnters_cons]

/-- Witness for C1: two concurrent 401s, refresh succeeding with `"tok"`. -/
theorem single_flight_refresh_witness :
    (completeRefresh (.ret (some "tok")) (runEnters [0, 1])).refreshCount = 1
    ∧ (completeRefresh (.ret (some "tok")) (runEnters [0, 1])).results 0
        = some (some "tok")
    ∧ (completeRefresh (.ret (some "tok")) (runEnters [0, 1])).results 1
        = some (some "tok") := by
  have h := single_flight_refresh [0, 1] (.ret (some "tok"))
    (by decide) (by decide)
  exact ⟨h.1, h.2.1 0 (by decide), h.2.1 1 (by decide)⟩

/-! ## Response processing and error conversion

`performRequest` lines 144–184 of `src/unnamed/part_003`, identical to
`HttpClient.request` lines 105–144 of `src/lib/http-client.ts` (C9's
source).  The awaited `fetch` and body parse are abstracted by a
`Response` record carrying the status, status text, and the parsed body
`data` (an object's fields, or text; non-object JSON bodies take the same
path as text in the error branch, having no `error` property). -/

/-- The parsed `data` value: a JSON object's fields, or a text body. -/
inductive BodyData where
  | obj (fields : List (String × JVal))
  | text (s : String)
deriving DecidableEq, Repr

/-- First-occurrence property lookup on an object. -/
def lookupField : List (String × JVal) → String → Option JVal
  | [], _ => none
  | kv :: tl, k => if kv.1 = k then some kv.2 else lookupField tl k

/-- JS property assignment `obj[k] = v`: overwrite in place, else append. -/
def setField : List (String × JVal) → String → JVal → List (String × JVal)
  | [], k, v => [(k, v)]
  | kv :: tl, k, v => if kv.1 = k then (k, v) :: tl else kv :: setField tl k v

theorem lookupField_setField_same (fs : List (String × JVal)) (k : String)
    (v : JVal) : lookupField (setField fs k v) k = some v := by
  induction fs with
  | nil => simp [setField, lookupField]
  | cons kv tl ih =>
    by_cases hk : kv.1 = k <;> simp [setField, lookupField, hk, ih]

theorem lookupField_setField_other (fs : List (String × JVal))
    (k k' : String) (v : JVal) (h : k' ≠ k) :
    lookupField (setField fs k v) k' = lookupField fs k' := by
  have h2 : k ≠ k' := fun he => h he.symm
  induction fs with
  | nil => simp [setField, lookupField, h2]
  | cons kv tl ih =>
    by_cases hk : kv.1 = k
    · have hk' : kv.1 ≠ k' := by rw [hk]; exact h2
      simp [setField, lookupField, hk, hk', h2]
    · by_cases hk2 : kv.1 = k' <;>
        simp [setField, lookupField, hk, hk2, h, ih]

theorem lookupField_filter (fs : List (String × JVal))
    (p : String × JVal → Bool) (k : String) (h : ∀ v, p (k, v) = true) :
    lookupField (fs.filter p) k = lookupField fs k := by
  induction fs with
  | nil => rfl
  | cons kv tl ih =>
    obtain ⟨k', v⟩ := kv
    by_cases hk : k' = k
    · subst hk
      simp [List.filter_cons, h v, lookupField, ih]
    · by_cases hp : p (k', v) = true <;>
        simp [List.filter_cons, hp, lookupField, hk, ih]

/-- The runtime shape of a thrown `InsForgeError`: the constructor fields
plus the bag of extra properties copied onto the object by the
`Object.keys(data)` loop. -/
structure InsForgeErrorModel where
  message : Option JVal
  statusCode : Option JVal
  errorCode : Option JVal
  nextActions : Option JVal
  extra : List (String × JVal)
deriving DecidableEq, Repr

/-- The `statusCode` defaulting plus `InsForgeError.fromApiError` plus the
extra-field copy loop (lines 161–174 of the client): mutate
`data.statusCode` only when the body declares neither a truthy `statusCode`
nor a truthy `status`, build the error from the (mutated) core fields, and
copy every key other than `error`/`message`/`statusCode` onto the error. -/
def buildApiError (status : Nat) (fields : List (String × JVal)) :
    InsForgeErrorModel :=
  let fields' :=
    if !(truthyJ (lookupField fields "statusCode")
        || truthyJ (lookupField fields "status")) then
      setField fields "statusCode" (.jnum status)
    else fields
  { message := lookupField fields' "message"
    statusCode := lookupField fields' "statusCode"
    errorCode := lookupField fields' "error"
    nextActions := lookupField fields' "nextActions"
    extra := fields'.filter (fun kv =>
      kv.1 != "error" && kv.1 != "message" && kv.1 != "statusCode") }

/-- Models `new InsForgeError('Request failed: ...', status, 'REQUEST_FAILED')`. -/
def plainError (status : Nat) (statusText : String) : InsForgeErrorModel :=
  { message := some (.jstr ("Request failed: " ++ statusText))
    statusCode := some (.jnum status)
    errorCode := some (.jstr "REQUEST_FAILED")
    nextActions := none
    extra := [] }

/-- One HTTP response as observed after `fetch` and body parsing. -/
structure Response where
  status : Nat
  statusText : String
  data : BodyData
deriving DecidableEq, Repr

/-- Models `response.ok` (2xx). -/
def Response.ok (r : Response) : Bool := 200 ≤ r.status && r.status ≤ 299

/-- How a request settles: `undefined` for 204, the parsed data on
success, or a thrown `InsForgeError`. -/
inductive ReqOutcome where
  | noContent
  | success (data : BodyData)
  | errThrown (e : InsForgeErrorModel)
deriving DecidableEq, Repr

/-- The post-fetch tail of `performRequest`/`request`: 204 short-circuit,
success passthrough, and non-2xx error conversion. -/
def processResponse (resp : Response) : ReqOutcome :=
  if resp.status = 204 then .noContent
  else if resp.ok then .success resp.data
  else
    match resp.data with
    | .obj fields =>
      match lookupField fields "error" with
      | some _ => .errThrown (buildApiError resp.status fields)
      | none => .errThrown (plainError resp.status resp.statusText)
    | .text _ => .errThrown (plainError resp.status resp.statusText)

/-- Models `performRequest(method, path, options, isRetry)` restricted to the
parts its 401 logic observes: `getResp b` is the response the network
returns for the attempt with retry flag `b`, `hasCb` whether a refresh
callback is configured, `r` the refresh callback's behaviour (the
initiating request sees `ownerResult r` from `handleTokenRefresh`).
Returns the request's outcome and the number of refresh cycles it
triggered. -/
def performRequestAux (getResp : Bool → Response) (hasCb : Bool)
    (r : RefreshCallbackResult) (isRetry : Bool) : ReqOutcome × Nat :=
  let resp := getResp isRetry
  if h : resp.status = 401 ∧ isRetry = false ∧ hasCb = true then
    match ownerResult r with
    | some newToken =>
      if newToken ≠ "" then
        let sub := performRequestAux getResp hasCb r true
        (sub.1, sub.2 + 1)
      else (processResponse resp, 1)
    | none => (processResponse resp, 1)
  else (processResponse resp, 0)
termination_by (if isRetry then 0 else 1)
decreasing_by simp [h.2.1]

/-- Models `HttpClient.request` enters with `isRetry = false`. -/
def performRequest (getResp : Bool → Response) (hasCb : Bool)
    (r : RefreshCallbackResult) : ReqOutcome × Nat :=
  performRequestAux getResp hasCb r false

/-- Any 401 response converts to a thrown error. -/
theorem processResponse_401 (resp : Response) (h : resp.status = 401) :
    ∃ e, processResponse resp = .errThrown e := by
  unfold processResponse Response.ok
  rw [h]
  cases hd : resp.data with
  | obj fields =>
    cases hl : lookupField fields "error" <;> simp [hl]
  | text s => simp

/-- C2 (no double retry): when the first attempt 401s, the refresh succeeds
with a (truthy) token, and the retried attempt 401s again, the request
performs exactly one refresh cycle and the second 401 is surfaced directly
as a thrown error. -/
theorem no_double_retry (getResp : Bool → Response)
    (r : RefreshCallbackResult) (t : String)
    (h1 : (getResp false).status = 401)
    (h2 : ownerResult r = some t) (ht : t ≠ "")
    (h3 : (getResp true).status = 401) :
    performRequest getResp true r = (processResponse (getResp true), 1)
    ∧ ∃ e, processResponse (getResp true) = .errThrown e := by
  refine ⟨?_, processResponse_401 _ h3⟩
  unfold performRequest
  rw [performRequestAux]
  rw [dif_pos ⟨h1, rfl, rfl⟩, h2]
  simp only [ht, ite_true, ne_eq, not_false_iff, if_true]
  rw [performRequestAux]
  rw [dif_neg (by simp)]

/-- Witness for C2 at a concrete response oracle. -/
theorem no_double_retry_witness :
    performRequest
      (fun _ => ⟨401, "Unauthorized", .text "denied"⟩) true
      (.ret (some "tok"))
      = (processResponse ⟨401, "Unauthorized", .text "denied"⟩, 1)
    ∧ ∃ e, processResponse (⟨401, "Unauthorized", .text "denied"⟩ : Response)
        = .errThrown e :=
  no_double_retry (fun _ => ⟨401, "Unauthorized", .text "denied"⟩)
    (.ret (some "tok")) "tok" rfl rfl (by decide) rfl

/-! ## C9 — typed error conversion -/

/-- Body of the C9 counterexample: declares `status` but not `statusCode`. -/
def c9Fields : List (String × JVal) :=
  [("error", .jstr "INVALID"), ("message", .jstr "bad"),
   ("status", .jnum 404)]

/-- Counterexample to C9 as stated: a 500 response whose error body carries
a truthy `status` field (but no `statusCode`) skips the statusCode
defaulting, so the thrown typed error carries NO HTTP status at all
(`statusCode` is absent), contradicting "carrying ... the HTTP status". -/
theorem typed_error_can_lack_http_status :
    processResponse ⟨500, "Internal Server Error", .obj c9Fields⟩
      = .errThrown (buildApiError 500 c9Fields)
    ∧ (buildApiError 500 c9Fields).statusCode = none
    ∧ (buildApiError 500 c9Fields).errorCode = some (.jstr "INVALID") := by
  refine ⟨by decide, by decide, by decide⟩

/-- C9 (amended): for every non-2xx, non-204 response whose JSON object
body has an `error` property and declares neither a truthy `statusCode` nor
a truthy `status`, the request throws a typed error carrying the body's
error code and message and the HTTP status, and every field beyond
`error`/`message`/`statusCode` is preserved verbatim on the error. -/
theorem error_conversion_preserves_fields (status : Nat) (stext : String)
    (fields : List (String × JVal))
    (h204 : status ≠ 204)
    (hok : (200 ≤ status && status ≤ 299) = false)
    (herr : (lookupField fields "error").isSome = true)
    (hsc : truthyJ (lookupField fields "statusCode") = false)
    (hst : truthyJ (lookupField fields "status") = false) :
    processResponse ⟨status, stext, .obj fields⟩
      = .errThrown (buildApiError status fields)
    ∧ (buildApiError status fields).errorCode = lookupField fields "error"
    ∧ (buildApiError status fields).message = lookupField fields "message"
    ∧ (buildApiError status fields).statusCode = some (.jnum status)
    ∧ (∀ k, k ≠ "error" → k ≠ "message" → k ≠ "statusCode" →
        lookupField (buildApiError status fields).extra k
          = lookupField fields k) := by
  have hcond : (!(truthyJ (lookupField fields "statusCode")
      || truthyJ (lookupField fields "status"))) = true := by
    rw [hsc, hst]; rfl
  have hfields : buildApiError status fields
      = { message := lookupField
            (setField fields "statusCode" (.jnum status)) "message"
          statusCode := lookupField
            (setField fields "statusCode" (.jnum status)) "statusCode"
          errorCode := lookupField
            (setField fields "statusCode" (.jnum status)) "error"
          nextActions := lookupField
            (setField fields "statusCode" (.jnum status)) "nextActions"
          extra := (setField fields "statusCode" (.jnum status)).filter
            (fun kv => kv.1 != "error" && kv.1 != "message"
              && kv.1 != "statusCode") } := by
    unfold buildApiError
    rw [hcond]
    simp
  refine ⟨?_, ?_, ?_, ?_, ?_⟩
  · unfold processResponse Response.ok
    obtain ⟨v, hv⟩ := Option.isSome_iff_exists.mp herr
    simp [h204, hok, hv]
  · rw [hfields]
    exact lookupField_setField_other _ _ _ _ (by decide)
  · rw [hfields]
    exact lookupField_setField_other _ _ _ _ (by decide)
  · rw [hfields]
    exact lookupField_setField_same _ _ _
  · intro k hke hkm hks
    rw [hfields]
    simp only
    rw [lookupField_filter _ _ k (fun v => by
      simp [hke, hkm, hks])]
    exact lookupField_setField_other _ _ _ _ hks

/-- Witness for C9 (amended) at a concrete error body with an extra
diagnostic field. -/
theorem error_conversion_preserves_fields_witness :
    (buildApiError 418
      [("error", .jstr "E"), ("message", .jstr "m"),
       ("requestId", .jstr "r1")]).statusCode = some (.jnum 418)
    ∧ lookupField (buildApiError 418
        [("error", .jstr "E"), ("message", .jstr "m"),
         ("requestId", .jstr "r1")]).extra "requestId"
        = some (.jstr "r1") := by
  have h := error_conversion_preserves_fields 418 "teapot"
    [("error", .jstr "E"), ("message", .jstr "m"),
     ("requestId", .jstr "r1")]
    (by decide) (by decide) (by decide) (by decide) (by decide)
  refine ⟨h.2.2.2.1, ?_⟩
  rw [h.2.2.2.2 "requestId" (by decide) (by decide) (by decide)]
  decide

/-! ## `src/unnamed/part_005` — PKCE verifier storage -/

/-- sessionStorage key `insforge_pkce_code_verifier`. -/
def PKCE_VERIFIER_KEY : String := "insforge_pkce_code_verifier"

/-- Models `storePkceVerifier(verifier)`. -/
def storePkceVerifier (ss : Store) (v : String) : Store :=
  setItem ss PKCE_VERIFIER_KEY v

/-- Models `consumePkceVerifier()`: reads the verifier and, when truthy, removes
it from sessionStorage before returning it (one-time use). -/
def consumePkceVerifier (ss : Store) : Option String × Store :=
  match getItem ss PKCE_VERIFIER_KEY with
  | none => (none, ss)
  | some v =>
    if v != "" then (some v, removeItem ss PKCE_VERIFIER_KEY)
    else (some v, ss)

/-! ## `src/modules/auth.ts` — restore, PKCE exchange, URL cleanup -/

/-- The page URL's query parameters (same assoc-list representation as a
store) together with the history stack depth, which lets `replaceState`
and `pushState` be distinguished. -/
structure UrlState where
  params : List (String × String)
  historyLen : Nat
deriving DecidableEq, Repr

/-- Models `window.history.replaceState`: swaps the URL without a new entry. -/
def replaceState (u : UrlState) (ps : List (String × String)) : UrlState :=
  { params := ps, historyLen := u.historyLen }

/-- Models `window.history.pushState`: a new history entry. -/
def pushState (u : UrlState) (ps : List (String × String)) : UrlState :=
  { params := ps, historyLen := u.historyLen + 1 }

/-- The query parameters deleted by `cleanupAuthCallbackUrl`. -/
def authCallbackParamKeys : List String :=
  ["code", "access_token", "user_id", "email", "name", "csrf_token",
   "error"]

/-- Models `cleanupAuthCallbackUrl()`: deletes the auth-related parameters and
installs the result with `replaceState` (not `pushState`). -/
def cleanupAuthCallbackUrl (u : UrlState) : UrlState :=
  replaceState u
    (u.params.filter (fun kv => !(authCallbackParamKeys.contains kv.1)))

/-- Ambient browser state visible to the `Auth` module: the PKCE
sessionStorage, the page URL, the token manager, the `HttpClient`'s user
token, and the CSRF cookie. -/
structure AuthWorld where
  sessionStore : Store
  url : UrlState
  tm : TM
  httpAuthToken : Option String
  csrfCookie : Option String
deriving Repr

/-- Abstracted outcome of the awaited `POST /api/auth/exchange`: a response
`{accessToken, user, csrfToken?}`, or a thrown error. -/
inductive ExchangeOutcome where
  | ok (accessToken : String) (user : JVal) (csrfToken : Option String)
  | err (msg : String)
deriving DecidableEq, Repr

/-- Models `Auth.exchangeAuthorizationCode(code)`: consumes the PKCE verifier
first, posts `{code, code_verifier}`, saves the session on success, and
cleans the URL in every branch.  The whole body is wrapped in `try/catch`
whose handler only logs and cleans the URL, so the returned promise always
resolves: the second component is the settlement of that promise. -/
def exchangeAuthorizationCode (c : JsonCodec) (w : AuthWorld)
    (outcome : ExchangeOutcome) : AuthWorld × Except String Unit :=
  let consumed := consumePkceVerifier w.sessionStore
  let w1 := { w with sessionStore := consumed.2 }
  match outcome with
  | .ok tok user csrf? =>
    if tok != "" && user.truthy then
      let w2 :=
        if truthyS csrf? then
          { w1 with tm := w1.tm.setMemoryMode, csrfCookie := csrf? }
        else w1
      let w3 := { w2 with httpAuthToken := some tok,
                          tm := w2.tm.saveSession c ⟨tok, user⟩ }
      ({ w3 with url := cleanupAuthCallbackUrl w3.url }, .ok ())
    else ({ w1 with url := cleanupAuthCallbackUrl w1.url }, .ok ())
  | .err _ =>
    ({ w1 with url := cleanupAuthCallbackUrl w1.url }, .ok ())

/-- The exchange handler never touches the PKCE store after the initial
consume: its final sessionStorage is the post-consume one. -/
theorem exchange_sessionStore_eq (c : JsonCodec) (w : AuthWorld)
    (o : ExchangeOutcome) :
    (exchangeAuthorizationCode c w o).1.sessionStore
      = (consumePkceVerifier w.sessionStore).2 := by
  cases o with
  | ok tok user csrf? =>
    by_cases h : (tok != "" && user.truthy) = true
    · by_cases hc : truthyS csrf? = true <;>
        simp [exchangeAuthorizationCode, h, hc]
    · simp [exchangeAuthorizationCode, h]
  | err m => simp [exchangeAuthorizationCode]

/-- Consuming a stored non-empty verifier removes its key. -/
theorem consume_removes_verifier (ss : Store) (v : String)
    (hv : getItem ss PKCE_VERIFIER_KEY = some v) (hne : v ≠ "") :
    getItem (consumePkceVerifier ss).2 PKCE_VERIFIER_KEY = none := by
  have hcons : (consumePkceVerifier ss).2
      = removeItem ss PKCE_VERIFIER_KEY := by
    unfold consumePkceVerifier
    rw [hv]
    simp [hne]
  rw [hcons, getItem_removeItem_same]

/-- C6 (PKCE verifier is single-use): with a stored (non-empty) verifier,
the consume step removes it from storage before the exchange request, it
stays removed whatever the exchange outcome, and a second run of the
handler finds no verifier (`consumePkceVerifier` returns `null`) — and, the
model being total, does not crash. -/
theorem pkce_verifier_single_use (c : JsonCodec) (w : AuthWorld)
    (v : String) (o : ExchangeOutcome)
    (hv : getItem w.sessionStore PKCE_VERIFIER_KEY = some v)
    (hne : v ≠ "") :
    getItem (consumePkceVerifier w.sessionStore).2 PKCE_VERIFIER_KEY = none
    ∧ getItem (exchangeAuthorizationCode c w o).1.sessionStore
        PKCE_VERIFIER_KEY = none
    ∧ consumePkceVerifier (exchangeAuthorizationCode c w o).1.sessionStore
        = (none, (exchangeAuthorizationCode c w o).1.sessionStore) := by
  have h1 := consume_removes_verifier w.sessionStore v hv hne
  have h2 : getItem (exchangeAuthorizationCode c w o).1.sessionStore
      PKCE_VERIFIER_KEY = none := by
    rw [exchange_sessionStore_eq]
    exact h1
  refine ⟨h1, h2, ?_⟩
  unfold consumePkceVerifier
  rw [h2]

/-- Witness for C6: a stored verifier consumed by a failing exchange. -/
theorem pkce_verifier_single_use_witness :
    getItem (consumePkceVerifier
      [(PKCE_VERIFIER_KEY, "v123")]).2 PKCE_VERIFIER_KEY = none
    ∧ getItem (exchangeAuthorizationCode witCodec
        ⟨[(PKCE_VERIFIER_KEY, "v123")], ⟨[("code", "abc")], 3⟩,
          ⟨none, .jnull, [], .storage⟩, none, none⟩
        (.err "boom")).1.sessionStore PKCE_VERIFIER_KEY = none
    ∧ consumePkceVerifier (exchangeAuthorizationCode witCodec
        ⟨[(PKCE_VERIFIER_KEY, "v123")], ⟨[("code", "abc")], 3⟩,
          ⟨none, .jnull, [], .storage⟩, none, none⟩
        (.err "boom")).1.sessionStore
        = (none, (exchangeAuthorizationCode witCodec
            ⟨[(PKCE_VERIFIER_KEY, "v123")], ⟨[("code", "abc")], 3⟩,
              ⟨none, .jnull, [], .storage⟩, none, none⟩
            (.err "boom")).1.sessionStore) :=
  pkce_verifier_single_use witCodec
    ⟨[(PKCE_VERIFIER_KEY, "v123")], ⟨[("code", "abc")], 3⟩,
      ⟨none, .jnull, [], .storage⟩, none, none⟩
    "v123" (.err "boom") (by decide) (by decide)

/-! ## C7 — failed PKCE exchange -/

/-- If every pair under key `k` is dropped by the filter, the filtered
list has no binding for `k`. -/
theorem getItem_filter_none (ps : Store) (p : String × String → Bool)
    (k : String) (h : ∀ v, p (k, v) = false) :
    getItem (ps.filter p) k = none := by
  induction ps with
  | nil => rfl
  | cons kv tl ih =>
    obtain ⟨k', v⟩ := kv
    by_cases hk : k' = k
    · subst hk
      simp [List.filter_cons, h v, ih]
    · by_cases hp : p (k', v) = true <;>
        simp [List.filter_cons, hp, getItem, hk, ih]

/-- Concrete world for the C7 counterexample: a stored verifier and a
`code` parameter in the URL. -/
def c7World : AuthWorld :=
  { sessionStore := [(PKCE_VERIFIER_KEY, "v123")]
    url := { params := [("code", "abc"), ("next", "home")], historyLen := 3 }
    tm := ⟨none, .jnull, [], .storage⟩
    httpAuthToken := none
    csrfCookie := none }

/-- Counterexample to C7 as stated: on a failed exchange the handler's
`catch` only logs and cleans the URL — the promise resolves normally, so
the exchange error is NOT surfaced to the caller, contradicting the
claim's final conjunct. -/
theorem failed_exchange_error_not_surfaced :
    (exchangeAuthorizationCode witCodec c7World (.err "exchange failed")).2
      = Except.ok () := rfl

/-- C7 (amended): on a failed exchange the verifier has still been
discarded, the `code` and related parameters are scrubbed from the URL with
`replaceState` (history depth unchanged), and the exchange error is caught
and logged rather than propagated: the handler resolves normally. -/
theorem failed_exchange_cleanup (c : JsonCodec) (w : AuthWorld)
    (v m : String)
    (hv : getItem w.sessionStore PKCE_VERIFIER_KEY = some v)
    (hne : v ≠ "") :
    getItem (exchangeAuthorizationCode c w (.err m)).1.sessionStore
      PKCE_VERIFIER_KEY = none
    ∧ (∀ k ∈ authCallbackParamKeys,
        getItem (exchangeAuthorizationCode c w (.err m)).1.url.params k
          = none)
    ∧ (exchangeAuthorizationCode c w (.err m)).1.url.historyLen
        = w.url.historyLen
    ∧ (exchangeAuthorizationCode c w (.err m)).2 = Except.ok () := by
  have hurl : (exchangeAuthorizationCode c w (.err m)).1.url
      = cleanupAuthCallbackUrl w.url := by
    simp [exchangeAuthorizationCode]
  have hverif : getItem
      (exchangeAuthorizationCode c w (.err m)).1.sessionStore
      PKCE_VERIFIER_KEY = none := by
    rw [exchange_sessionStore_eq]
    exact consume_removes_verifier w.sessionStore v hv hne
  refine ⟨hverif, ?_, ?_, ?_⟩
  · intro k hk
    rw [hurl]
    unfold cleanupAuthCallbackUrl replaceState
    simp only
    fin_cases hk <;> exact getItem_filter_none _ _ _ (fun v => rfl)
  · rw [hurl]; rfl
  · simp [exchangeAuthorizationCode]

/-- Witness for C7 (amended) at the concrete counterexample world. -/
theorem failed_exchange_cleanup_witness :
    getItem (exchangeAuthorizationCode witCodec c7World
      (.err "boom")).1.sessionStore PKCE_VERIFIER_KEY = none
    ∧ getItem (exchangeAuthorizationCode witCodec c7World
        (.err "boom")).1.url.params "code" = none
    ∧ (exchangeAuthorizationCode witCodec c7World
        (.err "boom")).1.url.historyLen = c7World.url.historyLen
    ∧ (exchangeAuthorizationCode witCodec c7World (.err "boom")).2
        = Except.ok () := by
  have h := failed_exchange_cleanup witCodec c7World "v123" "boom"
    (by decide) (by decide)
  exact ⟨h.1, h.2.1 "code" (by decide), h.2.2.1, h.2.2.2⟩

/-! ## C4 — `Auth.restoreSession` failure classification -/

/-- Abstracted outcome of the awaited `POST /api/auth/refresh`: a response
`{accessToken, user?, csrfToken?}`, a thrown `InsForgeError` carrying a
(possibly absent) `statusCode`, or a thrown non-`InsForge` error (network/
transport failure). -/
inductive RefreshHttpOutcome where
  | ok (accessToken : String) (user : Option JVal) (csrfToken : Option String)
  | insforgeErr (statusCode : Option Nat)
  | otherErr
deriving DecidableEq, Repr

/-- Models `Auth.restoreSession()` (lines 837–905): memory-token short-circuit,
cookie-based refresh, and the error classification — 404 falls back to
storage mode and local recovery, 401/403 switches to memory mode and clears
the CSRF cookie, anything else changes nothing. -/
def restoreSession (c : JsonCodec) (isBrowser : Bool) (w : AuthWorld)
    (o : RefreshHttpOutcome) : Bool × AuthWorld :=
  if !isBrowser then (false, w)
  else if truthyS (TM.getAccessToken w.tm) then (true, w)
  else
    match o with
    | .ok tok user? csrf? =>
      if tok != "" then
        let w1 := { w with tm := w.tm.setMemoryMode }
        let w2 := { w1 with tm := w1.tm.setAccessToken tok,
                            httpAuthToken := some tok }
        let w3 :=
          if truthyJ user? then
            { w2 with tm := TM.setUser c w2.tm (user?.getD .jnull) }
          else w2
        let w4 :=
          if truthyS csrf? then { w3 with csrfCookie := csrf? } else w3
        (true, w4)
      else (false, w)
    | .insforgeErr sc =>
      if sc = some 404 then
        let w1 := { w with tm := w.tm.setStorageMode c }
        if truthyS (TM.getAccessToken w1.tm) then
          (true, { w1 with httpAuthToken := TM.getAccessToken w1.tm })
        else (false, w1)
      else if sc = some 401 ∨ sc = some 403 then
        (false, { w with tm := w.tm.setMemoryMode, csrfCookie := none })
      else (false, w)
    | .otherErr => (false, w)

/-- C4 (refresh failure classification during restore): with no token in
memory, (a) a network/transport error leaves the whole world — in
particular the stored session — untouched; (b) a 404 falls back to reading
the durable session, reporting logged-in when one parses, with the CSRF
cookie untouched; (c) 401 and 403 clear the CSRF cookie, and no other
error status does. -/
theorem refresh_failure_classification (c : JsonCodec) (w : AuthWorld)
    (hmem : truthyS w.tm.accessToken = false) :
    restoreSession c true w .otherErr = (false, w)
    ∧ (∀ t s u, getItem w.tm.store TOKEN_KEY = some t → t ≠ "" →
        getItem w.tm.store USER_KEY = some s → s ≠ "" →
        c.parse s = some u →
        (restoreSession c true w (.insforgeErr (some 404))).1 = true
        ∧ (restoreSession c true w
            (.insforgeErr (some 404))).2.csrfCookie = w.csrfCookie)
    ∧ (restoreSession c true w (.insforgeErr (some 401))).2.csrfCookie
        = none
    ∧ (restoreSession c true w (.insforgeErr (some 403))).2.csrfCookie
        = none
    ∧ (∀ sc, sc ≠ some 401 → sc ≠ some 403 →
        (restoreSession c true w (.insforgeErr sc)).2.csrfCookie
          = w.csrfCookie) := by
  have hacc : truthyS (TM.getAccessToken w.tm) = false := hmem
  refine ⟨?_, ?_, ?_, ?_, ?_⟩
  · simp [restoreSession, hacc]
  · intro t s u ht htne hs hsne hp
    have hload : TM.getAccessToken (w.tm.setStorageMode c) = some t := by
      unfold TM.setStorageMode TM.loadFromStorage
      simp only
      rw [ht, hs]
      simp [truthyS, htne, hsne, hp, TM.getAccessToken]
    have htr : truthyS (TM.getAccessToken (w.tm.setStorageMode c))
        = true := by
      rw [hload]; simpa [truthyS] using htne
    constructor
    · simp [restoreSession, hacc, htr]
    · simp [restoreSession, hacc, htr]
  · simp [restoreSession, hacc]
  · simp [restoreSession, hacc]
  · intro sc h1 h3
    by_cases h4 : sc = some 404
    · subst h4
      by_cases htr : truthyS (TM.getAccessToken (w.tm.setStorageMode c))
          = true <;> simp [restoreSession, hacc, htr]
    · simp [restoreSession, hacc, h4, h1, h3]

/-- Witness for C4 at a concrete world holding a durable session and a
CSRF cookie. -/
theorem refresh_failure_classification_witness :
    restoreSession witCodec true
      ⟨[], ⟨[], 0⟩,
        ⟨none, .jnull,
          [(TOKEN_KEY, "t1"), (USER_KEY, encodeJ (.jstr "u1"))], .storage⟩,
        none, some "csrf1"⟩ .otherErr
      = (false, ⟨[], ⟨[], 0⟩,
          ⟨none, .jnull,
            [(TOKEN_KEY, "t1"), (USER_KEY, encodeJ (.jstr "u1"))],
            .storage⟩, none, some "csrf1"⟩)
    ∧ (restoreSession witCodec true
        ⟨[], ⟨[], 0⟩,
          ⟨none, .jnull,
            [(TOKEN_KEY, "t1"), (USER_KEY, encodeJ (.jstr "u1"))],
            .storage⟩, none, some "csrf1"⟩
        (.insforgeErr (some 404))).1 = true
    ∧ (restoreSession witCodec true
        ⟨[], ⟨[], 0⟩,
          ⟨none, .jnull,
            [(TOKEN_KEY, "t1"), (USER_KEY, encodeJ (.jstr "u1"))],
            .storage⟩, none, some "csrf1"⟩
        (.insforgeErr (some 401))).2.csrfCookie = none
    ∧ (restoreSession witCodec true
        ⟨[], ⟨[], 0⟩,
          ⟨none, .jnull,
            [(TOKEN_KEY, "t1"), (USER_KEY, encodeJ (.jstr "u1"))],
            .storage⟩, none, some "csrf1"⟩
        (.insforgeErr (some 500))).2.csrfCookie = some "csrf1" := by
  have h := refresh_failure_classification witCodec
    ⟨[], ⟨[], 0⟩,
      ⟨none, .jnull,
        [(TOKEN_KEY, "t1"), (USER_KEY, encodeJ (.jstr "u1"))], .storage⟩,
      none, some "csrf1"⟩ (by decide)
  refine ⟨h.1, ?_, h.2.2.1, ?_⟩
  · exact (h.2.1 "t1" (encodeJ (.jstr "u1")) (.jstr "u1")
      (by decide) (by decide) (by decide) (by decide) (by decide)).1
  · exact h.2.2.2.2 (some 500) (by decide) (by decide)

/-- C10: for EVERY TokenManager state, a session is reported only when
both the token and the user are held (non-null); and in particular, on a
manager holding no user, `setAccessToken` yields a state where
`getSession` is null while `getAccessToken` returns the token. -/
theorem tm_session_requires_token_and_user (tm : TM) (t : String) :
    ((TM.getSession tm).isSome → tm.accessToken ≠ none ∧ tm.user ≠ .jnull)
    ∧ (tm.user = .jnull →
        TM.getSession (TM.setAccessToken tm t) = none
        ∧ TM.getAccessToken (TM.setAccessToken tm t) = some t) := by
  constructor
  · intro h
    unfold TM.getSession at h
    by_cases htok : truthyS tm.accessToken && tm.user.truthy
    · constructor
      · intro hn
        rw [hn] at htok
        simp [truthyS] at htok
      · intro hn
        rw [hn] at htok
        simp [JVal.truthy] at htok
    · simp [htok] at h
  · intro hu
    constructor
    · unfold TM.setAccessToken TM.getSession
      by_cases hm : tm.mode = .storage <;>
        simp [hm, hu, JVal.truthy]
    · unfold TM.setAccessToken TM.getAccessToken
      by_cases hm : tm.mode = .storage <;> simp [hm]

/-- Witness for C10: the universal conjunct applied (non-vacuously) to a
manager holding a full session, and the particular conjunct to a
manager holding no user. -/
theorem tm_session_requires_token_and_user_witness :
    ((⟨some "tok", .jstr "u", [], .storage⟩ : TM).accessToken ≠ none
      ∧ (⟨some "tok", .jstr "u", [], .storage⟩ : TM).user ≠ .jnull)
    ∧ TM.getSession (TM.setAccessToken ⟨none, .jnull, [], .storage⟩ "tok")
        = none
    ∧ TM.getAccessToken
        (TM.setAccessToken ⟨none, .jnull, [], .storage⟩ "tok")
        = some "tok" := by
  have h1 := (tm_session_requires_token_and_user
    ⟨some "tok", .jstr "u", [], .storage⟩ "x").1 (by decide)
  have h2 := (tm_session_requires_token_and_user
    ⟨none, .jnull, [], .storage⟩ "tok").2 rfl
  exact ⟨h1, h2.1, h2.2⟩

end InsForge
